import Mathlib

/-!
# Verification of the LPEL stream subsystem (`src/stream.c`)

A shallow embedding of the stream communication core of LPEL: the bounded
SPSC buffer, stream objects with their two signed semaphore counters
(`n_sem`, `e_sem`), stream descriptors, the read/write suspension protocol,
and the poll protocol.

The sequential semantics of each operation is translated function by
function from `src/stream.c`.  Since tasks are cooperative, an operation
that suspends (`LpelTaskBlock`) can only continue after a peer acts; this
is modelled by an explicit environment parameter holding the state the
operation observes on resumption (`none` means no peer ever acts, so the
operation stays blocked and its remaining effects never happen).  All
scheduler and monitoring callbacks are recorded in an event trace.

The buffer (`buffer.c`/`buffer.h`) and the stream-set iterator
(`streamset.c`) are not part of the sources; their definitions below are
modelled from the specification (§4.1 and §3/§4.5 respectively), as is the
compile-time default buffer size from `stream.h`.
-/

/-- Items are opaque non-null pointers; `Option Item` stands for a nullable
item reference, `none` being `NULL`. -/
abbrev Item := Nat

/-- Modelled from the spec (§4.1; `buffer.h`/`buffer.c` are not under
`src/`): a bounded FIFO ring of capacity `cap`; `data` lists the buffered
items, head first. -/
structure buffer_t where
  cap : Nat
  data : List Item
deriving Repr, DecidableEq

/-- Modelled from the spec: `_LpelBufferInit` — an empty buffer of the given
capacity. -/
def LpelBufferInit (size : Nat) : buffer_t :=
  ⟨size, []⟩

/-- Modelled from the spec: `_LpelBufferTop` returns the item at the head or
the null sentinel (`none`) if the buffer is empty. -/
def LpelBufferTop (b : buffer_t) : Option Item :=
  b.data.head?

/-- Modelled from the spec: `_LpelBufferPop` removes the head item. -/
def LpelBufferPop (b : buffer_t) : buffer_t :=
  ⟨b.cap, b.data.tail⟩

/-- Modelled from the spec: `_LpelBufferPut` appends an item at the tail. -/
def LpelBufferPut (b : buffer_t) (item : Item) : buffer_t :=
  ⟨b.cap, b.data ++ [item]⟩

/-- Modelled from the spec: `_LpelBufferIsSpace` holds when the occupancy is
below the capacity. -/
def LpelBufferIsSpace (b : buffer_t) : Bool :=
  decide (b.data.length < b.cap)

/-- Modelled from the spec: the compile-time default buffer size
`STREAM_BUFFER_SIZE` substituted by `LpelStreamCreate` for `size = 0`
(`stream.h` is not under `src/`; the exact value is irrelevant to the
claims, only that it is a fixed positive constant). -/
def STREAM_BUFFER_SIZE : Nat := 16

/-- A stream descriptor (`lpel_stream_desc_t`): a per-task handle binding
the task `task` to the stream with uid `stream` in direction `mode`
(`'r'` or `'w'`).  `next` is the intrusive stream-set link; `mon` records
whether a monitoring object is attached (`sd->mon != NULL`).  Tasks and
descriptors are identified by natural numbers standing for their
addresses; the stream back-reference is by uid, which breaks the pointer
cycle of the C structures. -/
structure lpel_stream_desc_t where
  task : Nat
  stream : Nat
  mode : Char
  next : Option Nat
  mon : Bool
deriving Repr, DecidableEq

/-- A stream (`struct lpel_stream_t` in `stream.c`): buffer, unique id,
poll flag (guarded by `prod_lock`, which sequentializes the critical
sections and so needs no explicit representation in this sequential
semantics), the two bound descriptors (null or present), and the two
signed semaphore counters. -/
structure lpel_stream_t where
  buffer : buffer_t
  uid : Nat
  is_poll : Bool
  prod_sd : Option lpel_stream_desc_t
  cons_sd : Option lpel_stream_desc_t
  n_sem : Int
  e_sem : Int
deriving Repr, DecidableEq

/-- The per-task fields of `lpel_task_t` that the stream code touches:
the poll token and the wakeup descriptor slot. -/
structure lpel_task_t where
  poll_token : Bool
  wakeup_sd : Option lpel_stream_desc_t
deriving Repr, DecidableEq

/-- The blocking reasons passed to `LpelTaskBlock`. -/
inductive BlockReason where
  | onInput
  | onOutput
  | onAnyIn
deriving Repr, DecidableEq

/-- Observable events of a stream operation: the scheduler calls
`LpelTaskBlock`/`LpelTaskUnblock` and the monitoring callbacks
(`LpelMonStreamBlockon`, `LpelMonStreamWakeup`, `LpelMonStreamMoved`),
in program order. -/
inductive Event where
  | blockOn (task : Nat) (r : BlockReason)
  | unblock (caller target : Nat)
  | monBlockon
  | monWakeup
  | monMoved (item : Item)
deriving Repr, DecidableEq

/-- `LpelStreamCreate` (stream.c:105-124): substitute the compile-time
default for `size = 0`, then build a stream with an empty buffer of that
capacity, `n_sem = 0`, `e_sem = size`, `is_poll = 0` and both descriptor
pointers null.  `seq` is the value drawn from the process-wide `stream_seq`
counter. -/
def LpelStreamCreate (size : Nat) (seq : Nat) : lpel_stream_t :=
  let size := if size = 0 then STREAM_BUFFER_SIZE else size
  { buffer := LpelBufferInit size
    uid := seq
    is_poll := false
    prod_sd := none
    cons_sd := none
    n_sem := 0
    e_sem := (size : Int) }

/-- `LpelStreamOpen` (stream.c:154-177): assert the mode, allocate a
descriptor for the calling task `ct`, and store it unconditionally into
`s->cons_sd` (mode `'r'`) or `s->prod_sd` (mode `'w'`).  `ctMon` reflects
whether `LpelMonStreamOpen` attaches a monitoring object.  `none` models
the failed mode assertion (abort). -/
def LpelStreamOpen (s : lpel_stream_t) (mode : Char) (ct : Nat) (ctMon : Bool) :
    Option (lpel_stream_desc_t × lpel_stream_t) :=
  if mode = 'r' ∨ mode = 'w' then
    let sd : lpel_stream_desc_t :=
      { task := ct, stream := s.uid, mode := mode, next := none, mon := ctMon }
    let s' := if mode = 'r' then { s with cons_sd := some sd }
              else { s with prod_sd := some sd }
    some (sd, s')
  else
    none

/-- Claim C7: `LpelStreamCreate size` yields capacity `size` (the default
`STREAM_BUFFER_SIZE` when `size = 0`), `n_sem = 0`, `e_sem` equal to the
capacity, `is_poll` false and both descriptor pointers null. -/
theorem create_initial_state (size seq : Nat) :
    (LpelStreamCreate size seq).buffer.cap
        = (if size = 0 then STREAM_BUFFER_SIZE else size) ∧
    (LpelStreamCreate size seq).buffer.data = [] ∧
    (LpelStreamCreate size seq).n_sem = 0 ∧
    (LpelStreamCreate size seq).e_sem
        = ((if size = 0 then STREAM_BUFFER_SIZE else size : Nat) : Int) ∧
    (LpelStreamCreate size seq).is_poll = false ∧
    (LpelStreamCreate size seq).prod_sd = none ∧
    (LpelStreamCreate size seq).cons_sd = none := by
  unfold LpelStreamCreate LpelBufferInit
  by_cases h : size = 0 <;> simp [h]

/-- Result of a read: the event trace, the final stream state, the returned
item, and whether the operation ran to completion (`ok = false` means the
task stayed blocked with no peer to resume it, or a `NULL` dereference /
failed assertion). -/
structure ReadRes where
  events : List Event
  s : lpel_stream_t
  ret : Option Item
  ok : Bool
deriving Repr, DecidableEq

/-- The part of `LpelStreamRead` after the `n_sem` decrement and possible
block (stream.c:272-292): read and pop the top element (asserted non-null),
increment `e_sem`, and unblock the producer when its pre-increment value
was negative.  `ev` is the trace accumulated so far and `s2` the stream
state observed at this point. -/
def readRest (self : Nat) (mon : Bool) (ev : List Event) (s2 : lpel_stream_t) : ReadRes :=
  match LpelBufferTop s2.buffer with
  | none => { events := ev, s := s2, ret := none, ok := false }
  | some item =>
    let s3 : lpel_stream_t := { s2 with buffer := LpelBufferPop s2.buffer }
    let e0 : Int := s3.e_sem
    let s4 := { s3 with e_sem := e0 + 1 }
    if e0 < 0 then
      match s4.prod_sd with
      | none => { events := ev, s := s4, ret := none, ok := false }
      | some psd =>
        let ev := ev ++ [Event.unblock self psd.task]
            ++ (if mon then [Event.monWakeup] else [])
        { events := ev ++ (if mon then [Event.monMoved item] else [])
          s := s4, ret := some item, ok := true }
    else
      { events := ev ++ (if mon then [Event.monMoved item] else [])
        s := s4, ret := some item, ok := true }

/-- `LpelStreamRead` (stream.c:256-293) for the consumer task `self` with
monitoring flag `mon`.  Decrement `n_sem`; when its pre-decrement value was
`0` the task blocks on input, and `env` supplies the stream state observed
on resumption (`none`: no producer ever acts, the read stays blocked). -/
def LpelStreamRead (self : Nat) (mon : Bool) (s : lpel_stream_t)
    (env : Option lpel_stream_t) : ReadRes :=
  let n0 := s.n_sem
  let s1 := { s with n_sem := n0 - 1 }
  if n0 = 0 then
    let ev := (if mon then [Event.monBlockon] else [])
        ++ [Event.blockOn self BlockReason.onInput]
    match env with
    | none => { events := ev, s := s1, ret := none, ok := false }
    | some s2 => readRest self mon ev s2
  else
    readRest self mon [] s1

/-- Result of a write: the event trace, the final stream state, the final
state of the consumer task bound through `cons_sd`, and the completion
flag (as in `ReadRes`). -/
structure WriteRes where
  events : List Event
  s : lpel_stream_t
  cons : lpel_task_t
  ok : Bool
deriving Repr, DecidableEq

/-- The part of `LpelStreamWrite` after the `e_sem` decrement and possible
block (stream.c:325-364): inside `prod_lock`, assert free space, append the
item and — when `is_poll` is set — swap the consumer's poll token to `0`
remembering the prior value as `poll_wakeup`, and clear `is_poll`; then
increment `n_sem` and wake the consumer on exactly one of the two wakeup
paths.  `cons2` is the state of the task `s2.cons_sd` binds (the poll
branches dereference `cons_sd`, so they require it to be bound). -/
def writeRest (self : Nat) (mon : Bool) (ev : List Event) (s2 : lpel_stream_t)
    (cons2 : lpel_task_t) (item : Item) : WriteRes :=
  if LpelBufferIsSpace s2.buffer then
    let s3 := { s2 with buffer := LpelBufferPut s2.buffer item }
    let pw : Bool := if s3.is_poll then cons2.poll_token else false
    let cons3 := if s3.is_poll then { cons2 with poll_token := false } else cons2
    let s4 := if s3.is_poll then { s3 with is_poll := false } else s3
    let n0 := s4.n_sem
    let s5 := { s4 with n_sem := n0 + 1 }
    if n0 < 0 then
      match s5.cons_sd with
      | none => { events := ev, s := s5, cons := cons3, ok := false }
      | some csd =>
        let ev := ev ++ [Event.unblock self csd.task]
            ++ (if mon then [Event.monWakeup] else [])
        { events := ev ++ (if mon then [Event.monMoved item] else [])
          s := s5, cons := cons3, ok := true }
    else
      if pw then
        match s5.cons_sd with
        | none => { events := ev, s := s5, cons := cons3, ok := false }
        | some csd =>
          let cons4 := { cons3 with wakeup_sd := some csd }
          let ev := ev ++ [Event.unblock self csd.task]
              ++ (if mon then [Event.monWakeup] else [])
          { events := ev ++ (if mon then [Event.monMoved item] else [])
            s := s5, cons := cons4, ok := true }
      else
        { events := ev ++ (if mon then [Event.monMoved item] else [])
          s := s5, cons := cons3, ok := true }
  else
    { events := ev, s := s2, cons := cons2, ok := false }

/-- `LpelStreamWrite` (stream.c:308-365) for the producer task `self` with
monitoring flag `mon`, writing the non-null `item`.  Decrement `e_sem`;
when its pre-decrement value was `0` the task blocks on output, and `env`
supplies the stream and consumer-task state observed on resumption
(`none`: no consumer ever acts, the write stays blocked). -/
def LpelStreamWrite (self : Nat) (mon : Bool) (s : lpel_stream_t) (cons : lpel_task_t)
    (item : Item) (env : Option (lpel_stream_t × lpel_task_t)) : WriteRes :=
  let e0 := s.e_sem
  let s1 := { s with e_sem := e0 - 1 }
  if e0 = 0 then
    let ev := (if mon then [Event.monBlockon] else [])
        ++ [Event.blockOn self BlockReason.onOutput]
    match env with
    | none => { events := ev, s := s1, cons := cons, ok := false }
    | some (s2, cons2) => writeRest self mon ev s2 cons2 item
  else
    writeRest self mon [] s1 cons item

/-- `LpelStreamTryWrite` (stream.c:378-385): return `-1` untouched when
the buffer reports no space, otherwise perform the write and return `0`. -/
def LpelStreamTryWrite (self : Nat) (mon : Bool) (s : lpel_stream_t) (cons : lpel_task_t)
    (item : Item) (env : Option (lpel_stream_t × lpel_task_t)) : Int × WriteRes :=
  if ¬ LpelBufferIsSpace s.buffer then
    (-1, { events := [], s := s, cons := cons, ok := true })
  else
    (0, LpelStreamWrite self mon s cons item env)

/-- Claim C1: writing a non-null item to an empty quiescent stream
(`n_sem = 0`, `e_sem = C`, no pending poll) and then reading from it
returns exactly that item, completes without staying blocked, and leaves
the stream empty again with `n_sem = 0` and `e_sem = C`. -/
theorem write_read_roundtrip (p c : Nat) (monw monr : Bool)
    (s : lpel_stream_t) (cons : lpel_task_t) (item : Item)
    (hdata : s.buffer.data = []) (hn : s.n_sem = 0)
    (he : s.e_sem = (s.buffer.cap : Int)) (hcap : 1 ≤ s.buffer.cap)
    (hpoll : s.is_poll = false) :
    (LpelStreamWrite p monw s cons item none).ok = true ∧
    (LpelStreamRead c monr (LpelStreamWrite p monw s cons item none).s none).ok = true ∧
    (LpelStreamRead c monr (LpelStreamWrite p monw s cons item none).s none).ret
        = some item ∧
    (LpelStreamRead c monr
        (LpelStreamWrite p monw s cons item none).s none).s.buffer.data = [] ∧
    (LpelStreamRead c monr (LpelStreamWrite p monw s cons item none).s none).s.n_sem = 0 ∧
    (LpelStreamRead c monr (LpelStreamWrite p monw s cons item none).s none).s.e_sem
        = (s.buffer.cap : Int) := by
  obtain ⟨⟨cap, data⟩, uid, ip, psd, csd, nsem, esem⟩ := s
  simp only at hdata hn he hpoll
  subst hdata hn he hpoll
  have hc0 : ((cap : Int)) ≠ 0 := by
    have := Nat.one_le_iff_ne_zero.mp hcap
    exact_mod_cast this
  have hcpos : 0 < cap := hcap
  have hcm : ¬ ((cap : Int) - 1 < 0) := by omega
  simp [LpelStreamWrite, writeRest, LpelStreamRead, readRest,
    LpelBufferIsSpace, LpelBufferPut, LpelBufferTop, LpelBufferPop,
    hc0, hcpos, hcm]

/-- Witness for C1 at a concrete capacity-1 stream and item 42. -/
theorem write_read_roundtrip_witness :
    (LpelStreamWrite 0 false ⟨⟨1, []⟩, 0, false, none, none, 0, 1⟩
        ⟨false, none⟩ 42 none).ok = true ∧
    (LpelStreamRead 1 false (LpelStreamWrite 0 false
        ⟨⟨1, []⟩, 0, false, none, none, 0, 1⟩ ⟨false, none⟩ 42 none).s none).ret
      = some 42 := by
  have h := write_read_roundtrip 0 1 false false
    ⟨⟨1, []⟩, 0, false, none, none, 0, 1⟩ ⟨false, none⟩ 42
    rfl rfl (by norm_num) (by norm_num) rfl
  exact ⟨h.1, h.2.2.1⟩

/-- Claim C6: `LpelStreamTryWrite` on a stream whose buffer has no space
returns `-1` and leaves everything untouched — same stream state (buffer,
`n_sem`, `e_sem`, `is_poll`, descriptors), same consumer-task state, and an
empty event trace (no monitoring callback); with space it performs the
write and returns `0`. -/
theorem trywrite_full_nofx (self : Nat) (mon : Bool) (s : lpel_stream_t)
    (cons : lpel_task_t) (item : Item) (env : Option (lpel_stream_t × lpel_task_t)) :
    (LpelBufferIsSpace s.buffer = false →
      LpelStreamTryWrite self mon s cons item env
        = (-1, { events := [], s := s, cons := cons, ok := true })) ∧
    (LpelBufferIsSpace s.buffer = true →
      LpelStreamTryWrite self mon s cons item env
        = (0, LpelStreamWrite self mon s cons item env)) := by
  constructor <;> intro h <;> simp [LpelStreamTryWrite, h]

/-- Witness for C6 on a concrete full capacity-1 stream. -/
theorem trywrite_full_nofx_witness :
    LpelStreamTryWrite 0 false ⟨⟨1, [5]⟩, 0, false, none, none, 1, 0⟩
        ⟨false, none⟩ 7 none
      = (-1, { events := [], s := ⟨⟨1, [5]⟩, 0, false, none, none, 1, 0⟩,
               cons := ⟨false, none⟩, ok := true }) :=
  (trywrite_full_nofx 0 false ⟨⟨1, [5]⟩, 0, false, none, none, 1, 0⟩
    ⟨false, none⟩ 7 none).1 (by decide)

/-- Discriminator for scheduler block events. -/
def isBlockEvent : Event → Bool
  | Event.blockOn _ _ => true
  | _ => false

/-- Discriminator for scheduler unblock events. -/
def isUnblockEvent : Event → Bool
  | Event.unblock _ _ => true
  | _ => false

/-- The stream state the consumer observes at the consume step of
`LpelStreamRead`: when the pre-decrement value of `n_sem` was `0` the task
blocked and resumed in the environment-supplied state `senv`, otherwise it
is the input state with `n_sem` decremented. -/
def readResumeState (s senv : lpel_stream_t) : lpel_stream_t :=
  if s.n_sem = 0 then senv else { s with n_sem := s.n_sem - 1 }

/-- Claim C2: in `LpelStreamRead`, the consumer blocks — with reason
`BLOCKED_ON_INPUT` and exactly once — if and only if the pre-decrement
value of `n_sem` was `0`; and it unblocks the producer task — exactly
once — if and only if the pre-increment value of `e_sem` (the value at the
consume step) was `-1`.  In every other case `LpelStreamRead` performs no
block and no unblock.  Hypotheses: the buffer holds an item at the consume
step (asserted by the code), `e_sem ≥ -1` (the documented counter
invariant: at most one blocked peer), and a bound producer descriptor when
one is to be woken. -/
theorem read_block_unblock_iff (self : Nat) (mon : Bool) (s senv : lpel_stream_t)
    (htop : LpelBufferTop (readResumeState s senv).buffer ≠ none)
    (hes : -1 ≤ (readResumeState s senv).e_sem)
    (hprod : (readResumeState s senv).e_sem = -1 →
        (readResumeState s senv).prod_sd.isSome = true) :
    ((LpelStreamRead self mon s (some senv)).events.countP isBlockEvent
        = if s.n_sem = 0 then 1 else 0) ∧
    (Event.blockOn self BlockReason.onInput
        ∈ (LpelStreamRead self mon s (some senv)).events ↔ s.n_sem = 0) ∧
    ((LpelStreamRead self mon s (some senv)).events.countP isUnblockEvent
        = if (readResumeState s senv).e_sem = -1 then 1 else 0) ∧
    ((readResumeState s senv).e_sem = -1 →
      ∃ p, (readResumeState s senv).prod_sd = some p ∧
        Event.unblock self p.task ∈ (LpelStreamRead self mon s (some senv)).events) := by
  by_cases hn : s.n_sem = 0 <;>
    simp only [readResumeState, hn, if_true, if_false, ite_true, ite_false] at htop hes hprod ⊢
  · obtain ⟨item, hitem⟩ : ∃ it, LpelBufferTop senv.buffer = some it := by
      cases h : LpelBufferTop senv.buffer
      · exact absurd h htop
      · exact ⟨_, rfl⟩
    by_cases he : senv.e_sem = -1
    · obtain ⟨p, hp⟩ := Option.isSome_iff_exists.mp (hprod he)
      cases mon <;>
        simp [LpelStreamRead, readRest, hn, hitem, hp, he, isBlockEvent, isUnblockEvent,
          List.countP_append, List.countP_cons]
    · have hnlt : ¬ (senv.e_sem < 0) := by omega
      cases mon <;>
        simp [LpelStreamRead, readRest, hn, hitem, he, hnlt, isBlockEvent, isUnblockEvent,
          List.countP_append, List.countP_cons]
  · obtain ⟨item, hitem⟩ :
        ∃ it, LpelBufferTop ({ s with n_sem := s.n_sem - 1 } : lpel_stream_t).buffer
            = some it := by
      cases h : LpelBufferTop ({ s with n_sem := s.n_sem - 1 } : lpel_stream_t).buffer
      · exact absurd h htop
      · exact ⟨_, rfl⟩
    by_cases he : s.e_sem = -1
    · obtain ⟨p, hp⟩ := Option.isSome_iff_exists.mp (hprod he)
      cases mon <;>
        simp [LpelStreamRead, readRest, hn, hitem, hp, he, isBlockEvent, isUnblockEvent,
          List.countP_append, List.countP_cons]
    · have hnlt : ¬ (s.e_sem < 0) := by omega
      cases mon <;>
        simp [LpelStreamRead, readRest, hn, hitem, he, hnlt, isBlockEvent, isUnblockEvent,
          List.countP_append, List.countP_cons]

/-- Witness for C2: a stream with `n_sem = 2`, `e_sem = -1` (producer
blocked) and one buffered item; the read does not block and performs
exactly one unblock. -/
theorem read_block_unblock_iff_witness :
    ((LpelStreamRead 5 false
        ⟨⟨2, [7]⟩, 0, false, some ⟨9, 0, 'w', none, false⟩, none, 2, -1⟩
        (some ⟨⟨2, [7]⟩, 0, false, some ⟨9, 0, 'w', none, false⟩, none, 2, -1⟩)).events.countP
          isUnblockEvent = 1) ∧
    Event.blockOn 5 BlockReason.onInput ∉
      (LpelStreamRead 5 false
        ⟨⟨2, [7]⟩, 0, false, some ⟨9, 0, 'w', none, false⟩, none, 2, -1⟩
        (some ⟨⟨2, [7]⟩, 0, false, some ⟨9, 0, 'w', none, false⟩, none, 2, -1⟩)).events := by
  have h := read_block_unblock_iff 5 false
    ⟨⟨2, [7]⟩, 0, false, some ⟨9, 0, 'w', none, false⟩, none, 2, -1⟩
    ⟨⟨2, [7]⟩, 0, false, some ⟨9, 0, 'w', none, false⟩, none, 2, -1⟩
    (by decide) (by decide) (by decide)
  refine ⟨by simpa [readResumeState] using h.2.2.1, fun hb => ?_⟩
  have := h.2.1.mp hb
  norm_num at this

/-- The stream and consumer-task state the producer observes at the deposit
step of `LpelStreamWrite`: when the pre-decrement value of `e_sem` was `0`
the task blocked and resumed in the environment-supplied state, otherwise
it is the input state with `e_sem` decremented. -/
def writeResumeState (s : lpel_stream_t) (cons : lpel_task_t)
    (env : lpel_stream_t × lpel_task_t) : lpel_stream_t × lpel_task_t :=
  if s.e_sem = 0 then env else ({ s with e_sem := s.e_sem - 1 }, cons)

/-- Wake trichotomy of the tail of `LpelStreamWrite` (stream.c:325-364):
after the `n_sem` increment, exactly one of: consumer unblocked because the
pre-increment value was `-1`; consumer unblocked on the poll path because
the token was won in the locked section (and `wakeup_sd` set to
`cons_sd`); or no unblock at all. -/
theorem writeRest_wakeup_cases (self : Nat) (mon : Bool) (ev : List Event)
    (s2 : lpel_stream_t) (cons2 : lpel_task_t) (item : Item)
    (hspace : LpelBufferIsSpace s2.buffer = true)
    (hns : -1 ≤ s2.n_sem)
    (hev : ev.countP isUnblockEvent = 0)
    (hcons : (s2.n_sem = -1 ∨ (s2.is_poll = true ∧ cons2.poll_token = true)) →
        s2.cons_sd.isSome = true) :
    ((writeRest self mon ev s2 cons2 item).events.countP isUnblockEvent ≤ 1) ∧
    (s2.n_sem = -1 → ∃ c, s2.cons_sd = some c ∧
        Event.unblock self c.task ∈ (writeRest self mon ev s2 cons2 item).events ∧
        (writeRest self mon ev s2 cons2 item).cons.wakeup_sd = cons2.wakeup_sd ∧
        (writeRest self mon ev s2 cons2 item).events.countP isUnblockEvent = 1) ∧
    (s2.n_sem ≠ -1 → s2.is_poll = true → cons2.poll_token = true →
        ∃ c, s2.cons_sd = some c ∧
        Event.unblock self c.task ∈ (writeRest self mon ev s2 cons2 item).events ∧
        (writeRest self mon ev s2 cons2 item).cons.wakeup_sd = some c ∧
        (writeRest self mon ev s2 cons2 item).events.countP isUnblockEvent = 1) ∧
    (s2.n_sem ≠ -1 → (s2.is_poll = false ∨ cons2.poll_token = false) →
        (writeRest self mon ev s2 cons2 item).events.countP isUnblockEvent = 0 ∧
        (writeRest self mon ev s2 cons2 item).cons.wakeup_sd = cons2.wakeup_sd) := by
  by_cases hn1 : s2.n_sem = -1
  · have hlt : s2.n_sem < 0 := by omega
    obtain ⟨c, hc⟩ := Option.isSome_iff_exists.mp (hcons (Or.inl hn1))
    cases hip : s2.is_poll <;> cases mon <;>
      simp [writeRest, hspace, hip, hc, hlt, hn1, isUnblockEvent,
        List.countP_append, List.countP_cons, hev]
  · have hge : ¬ (s2.n_sem < 0) := by omega
    cases hip : s2.is_poll
    · cases mon <;>
        simp [writeRest, hspace, hip, hge, hn1, isUnblockEvent,
          List.countP_append, List.countP_cons, hev]
    · cases ht : cons2.poll_token
      · cases mon <;>
          simp [writeRest, hspace, hip, ht, hge, hn1, isUnblockEvent,
            List.countP_append, List.countP_cons, hev]
      · obtain ⟨c, hc⟩ := Option.isSome_iff_exists.mp (hcons (Or.inr ⟨hip, ht⟩))
        cases mon <;>
          simp [writeRest, hspace, hip, ht, hge, hc, hn1, isUnblockEvent,
            List.countP_append, List.countP_cons, hev]

/-- Claim C3: in `LpelStreamWrite`, after the `n_sem` increment exactly one
of three disjoint outcomes occurs — if the pre-increment `n_sem` was `-1`
the consumer is unblocked (blocked-read wakeup, `wakeup_sd` untouched);
otherwise if the poll token was won in the locked section the consumer
task's `wakeup_sd` is set to `cons_sd` and the consumer is unblocked;
otherwise no unblock happens.  A single write never performs more than one
unblock. -/
theorem write_wakeup_trichotomy (self : Nat) (mon : Bool) (s : lpel_stream_t)
    (cons : lpel_task_t) (item : Item) (env : lpel_stream_t × lpel_task_t)
    (s2 : lpel_stream_t) (cons2 : lpel_task_t)
    (hres : writeResumeState s cons env = (s2, cons2))
    (hspace : LpelBufferIsSpace s2.buffer = true)
    (hns : -1 ≤ s2.n_sem)
    (hcons : (s2.n_sem = -1 ∨ (s2.is_poll = true ∧ cons2.poll_token = true)) →
        s2.cons_sd.isSome = true) :
    ((LpelStreamWrite self mon s cons item (some env)).events.countP isUnblockEvent ≤ 1) ∧
    (s2.n_sem = -1 → ∃ c, s2.cons_sd = some c ∧
        Event.unblock self c.task ∈ (LpelStreamWrite self mon s cons item (some env)).events ∧
        (LpelStreamWrite self mon s cons item (some env)).cons.wakeup_sd = cons2.wakeup_sd ∧
        (LpelStreamWrite self mon s cons item (some env)).events.countP isUnblockEvent = 1) ∧
    (s2.n_sem ≠ -1 → s2.is_poll = true → cons2.poll_token = true →
        ∃ c, s2.cons_sd = some c ∧
        Event.unblock self c.task ∈ (LpelStreamWrite self mon s cons item (some env)).events ∧
        (LpelStreamWrite self mon s cons item (some env)).cons.wakeup_sd = some c ∧
        (LpelStreamWrite self mon s cons item (some env)).events.countP isUnblockEvent = 1) ∧
    (s2.n_sem ≠ -1 → (s2.is_poll = false ∨ cons2.poll_token = false) →
        (LpelStreamWrite self mon s cons item (some env)).events.countP isUnblockEvent = 0 ∧
        (LpelStreamWrite self mon s cons item (some env)).cons.wakeup_sd
            = cons2.wakeup_sd) := by
  by_cases hb0 : s.e_sem = 0
  · have henv : env = (s2, cons2) := by simpa [writeResumeState, hb0] using hres
    have hW : LpelStreamWrite self mon s cons item (some env)
        = writeRest self mon ((if mon then [Event.monBlockon] else [])
            ++ [Event.blockOn self BlockReason.onOutput]) s2 cons2 item := by
      simp [LpelStreamWrite, hb0, henv]
    rw [hW]
    exact writeRest_wakeup_cases self mon _ s2 cons2 item hspace hns
      (by cases mon <;> simp [isUnblockEvent]) hcons
  · obtain ⟨h1, h2⟩ : { s with e_sem := s.e_sem - 1 } = s2 ∧ cons = cons2 := by
      simpa [writeResumeState, hb0] using hres
    subst h1; subst h2
    have hW : LpelStreamWrite self mon s cons item (some env)
        = writeRest self mon [] { s with e_sem := s.e_sem - 1 } cons item := by
      simp [LpelStreamWrite, hb0]
    rw [hW]
    exact writeRest_wakeup_cases self mon [] _ cons item hspace hns (by simp) hcons

/-- Witness for C3: a non-blocking write to an empty polled stream
(`is_poll` set, consumer token available) performs exactly one unblock and
routes it through the poll path, setting `wakeup_sd` to `cons_sd`. -/
theorem write_wakeup_trichotomy_witness :
    ((LpelStreamWrite 4 false ⟨⟨2, []⟩, 0, true, none, some ⟨8, 0, 'r', none, false⟩, 0, 3⟩
        ⟨true, none⟩ 9 (some (⟨⟨2, []⟩, 0, true, none, some ⟨8, 0, 'r', none, false⟩, 0, 3⟩,
        ⟨true, none⟩))).events.countP isUnblockEvent = 1) ∧
    (LpelStreamWrite 4 false ⟨⟨2, []⟩, 0, true, none, some ⟨8, 0, 'r', none, false⟩, 0, 3⟩
        ⟨true, none⟩ 9 (some (⟨⟨2, []⟩, 0, true, none, some ⟨8, 0, 'r', none, false⟩, 0, 3⟩,
        ⟨true, none⟩))).cons.wakeup_sd = some ⟨8, 0, 'r', none, false⟩ := by
  have h := write_wakeup_trichotomy 4 false
    ⟨⟨2, []⟩, 0, true, none, some ⟨8, 0, 'r', none, false⟩, 0, 3⟩ ⟨true, none⟩ 9
    (⟨⟨2, []⟩, 0, true, none, some ⟨8, 0, 'r', none, false⟩, 0, 3⟩, ⟨true, none⟩)
    ⟨⟨2, []⟩, 0, true, none, some ⟨8, 0, 'r', none, false⟩, 0, 2⟩ ⟨true, none⟩
    (by decide) (by decide) (by decide) (by decide)
  obtain ⟨c, hc, hmem, hwk, hcnt⟩ := h.2.2.1 (by decide) rfl rfl
  have hceq : c = ⟨8, 0, 'r', none, false⟩ := by
    simpa using hc.symm
  exact ⟨hcnt, hceq ▸ hwk⟩

/-- Outcome of an operation whose first step is a `malloc`: `ok` carries the
built object when allocation succeeds; `crash` marks the undefined behavior
of dereferencing a failed (`NULL`) allocation; `fail` stands for an
explicit failure value reported to the caller. -/
inductive AllocOutcome (α : Type) where
  | ok (a : α)
  | crash
  | fail
deriving Repr, DecidableEq

/-- `LpelStreamCreate` with the allocation made explicit (stream.c:110-114):
the `malloc` result is immediately dereferenced by
`_LpelBufferInit(&s->buffer, size)` without a `NULL` check, so a failed
allocation is a `NULL`-pointer dereference; no path returns a failure
value to the caller. -/
def LpelStreamCreateAlloc (size seq : Nat) (allocOk : Bool) :
    AllocOutcome lpel_stream_t :=
  if allocOk then .ok (LpelStreamCreate size seq) else .crash

/-- `LpelStreamOpen` with the allocation made explicit (stream.c:160-161):
the `malloc` result is immediately written through (`sd->task = ct`)
without a `NULL` check; the failed mode assertion aborts (`crash`). -/
def LpelStreamOpenAlloc (s : lpel_stream_t) (mode : Char) (ct : Nat) (ctMon : Bool)
    (allocOk : Bool) : AllocOutcome (lpel_stream_desc_t × lpel_stream_t) :=
  if allocOk then
    match LpelStreamOpen s mode ct ctMon with
    | some r => .ok r
    | none => .crash
  else .crash

/-- Counterexample to C8: with a failing allocator, `LpelStreamCreate` and
`LpelStreamOpen` dereference the `NULL` allocation (crash) instead of
propagating an explicit failure to the caller: no explicit failure value
is ever produced. -/
theorem create_open_alloc_counterexample :
    LpelStreamCreateAlloc 4 0 false = AllocOutcome.crash ∧
    LpelStreamCreateAlloc 4 0 false ≠ AllocOutcome.fail ∧
    LpelStreamOpenAlloc (LpelStreamCreate 4 0) 'r' 3 false false = AllocOutcome.crash ∧
    LpelStreamOpenAlloc (LpelStreamCreate 4 0) 'r' 3 false false ≠ AllocOutcome.fail := by
  refine ⟨rfl, by decide, rfl, by decide⟩

/-- C8 as amended: `Create`/`Open` perform no allocation-failure check —
with a succeeding allocator they return the fully built object, with a
failing one they dereference the `NULL` result (crash); in no case is an
explicit failure value returned to the caller. -/
theorem create_open_alloc_behavior (size seq : Nat) (s : lpel_stream_t) (mode : Char)
    (ct : Nat) (ctMon : Bool) :
    (LpelStreamCreateAlloc size seq true = AllocOutcome.ok (LpelStreamCreate size seq)) ∧
    (LpelStreamCreateAlloc size seq false = AllocOutcome.crash) ∧
    (∀ b, LpelStreamCreateAlloc size seq b ≠ AllocOutcome.fail) ∧
    (LpelStreamOpenAlloc s mode ct ctMon false = AllocOutcome.crash) ∧
    (∀ b, LpelStreamOpenAlloc s mode ct ctMon b ≠ AllocOutcome.fail) := by
  refine ⟨rfl, rfl, ?_, rfl, ?_⟩
  · intro b
    cases b <;> simp [LpelStreamCreateAlloc]
  · intro b
    cases b <;> simp only [LpelStreamOpenAlloc]
    · simp
    · cases h : LpelStreamOpen s mode ct ctMon <;> simp [h]

/-- `LpelStreamReplace` (stream.c:205-217) over an explicit heap of streams
addressed by uid: assert read mode, destroy the old stream
(`LpelStreamDestroy`, modelled as removal from the heap), install the new
stream id in the descriptor, and set the new stream's consumer
back-pointer to the updated descriptor.  `none` models the failed mode
assertion and the dereference of an absent new stream. -/
def LpelStreamReplace (sd : lpel_stream_desc_t) (heap : Nat → Option lpel_stream_t)
    (snewId : Nat) : Option (lpel_stream_desc_t × (Nat → Option lpel_stream_t)) :=
  if sd.mode = 'r' then
    let heap1 : Nat → Option lpel_stream_t :=
      fun k => if k = sd.stream then none else heap k
    let sd1 : lpel_stream_desc_t := { sd with stream := snewId }
    match heap1 snewId with
    | none => none
    | some snew =>
        some (sd1, fun k => if k = snewId
          then some { snew with cons_sd := some sd1 } else heap1 k)
  else
    none

/-- Claim C9: for a read-mode descriptor and a fresh stream `snew` (present
in the heap, distinct from the old stream), `LpelStreamReplace` destroys
the old stream, sets `sd.stream = snew` and `snew.cons_sd = sd`, and
leaves every other descriptor field (task, mode, next link, monitoring
handle) and every other heap entry unchanged. -/
theorem replace_installs_new_stream (sd : lpel_stream_desc_t)
    (heap : Nat → Option lpel_stream_t) (snewId : Nat) (snew : lpel_stream_t)
    (hmode : sd.mode = 'r') (hnew : heap snewId = some snew) (hne : snewId ≠ sd.stream) :
    ∃ sd1 heap1, LpelStreamReplace sd heap snewId = some (sd1, heap1) ∧
      sd1.stream = snewId ∧ sd1.task = sd.task ∧ sd1.mode = sd.mode ∧
      sd1.next = sd.next ∧ sd1.mon = sd.mon ∧
      heap1 sd.stream = none ∧
      heap1 snewId = some { snew with cons_sd := some sd1 } ∧
      (∀ k, k ≠ sd.stream → k ≠ snewId → heap1 k = heap k) := by
  refine ⟨{ sd with stream := snewId },
    fun k => if k = snewId
      then some { snew with cons_sd := some { sd with stream := snewId } }
      else if k = sd.stream then none else heap k,
    ?_, rfl, rfl, rfl, rfl, rfl, ?_, ?_, ?_⟩
  · simp [LpelStreamReplace, hmode, hne, hnew]
  · have : sd.stream ≠ snewId := fun h => hne h.symm
    simp [this]
  · simp
  · intro k hk1 hk2
    simp [hk1, hk2]

/-- Witness for C9 on a two-stream heap. -/
theorem replace_installs_new_stream_witness :
    ∃ sd1 heap1, LpelStreamReplace ⟨2, 0, 'r', some 7, true⟩
        (fun k => if k = 0 then some ⟨⟨1, []⟩, 0, false, none, none, 0, 1⟩
                  else if k = 1 then some ⟨⟨2, []⟩, 1, false, none, none, 0, 2⟩ else none) 1
      = some (sd1, heap1) ∧ sd1.task = 2 ∧ sd1.stream = 1 ∧ heap1 0 = none := by
  obtain ⟨sd1, heap1, h, hs, ht, _, _, _, hd, _, _⟩ :=
    replace_installs_new_stream ⟨2, 0, 'r', some 7, true⟩
      (fun k => if k = 0 then some ⟨⟨1, []⟩, 0, false, none, none, 0, 1⟩
                else if k = 1 then some ⟨⟨2, []⟩, 1, false, none, none, 0, 2⟩ else none) 1
      ⟨⟨2, []⟩, 1, false, none, none, 0, 2⟩ rfl (by norm_num) (by norm_num)
  exact ⟨sd1, heap1, h, ht, hs, hd⟩

/-- Claim C10: `LpelStreamOpen` performs no double-bind check — for every
stream, even one whose requested-mode descriptor slot is already bound, it
succeeds and unconditionally overwrites `cons_sd` (mode `'r'`) or
`prod_sd` (mode `'w'`) with the newly allocated descriptor, which it
returns; all other stream fields are untouched. -/
theorem open_overwrites_binding (s : lpel_stream_t) (mode : Char) (ct : Nat) (ctMon : Bool)
    (hmode : mode = 'r' ∨ mode = 'w') :
    ∃ sd s', LpelStreamOpen s mode ct ctMon = some (sd, s') ∧
      sd = { task := ct, stream := s.uid, mode := mode, next := none, mon := ctMon } ∧
      (mode = 'r' → s'.cons_sd = some sd ∧ s'.prod_sd = s.prod_sd) ∧
      (mode = 'w' → s'.prod_sd = some sd ∧ s'.cons_sd = s.cons_sd) ∧
      s'.buffer = s.buffer ∧ s'.n_sem = s.n_sem ∧ s'.e_sem = s.e_sem ∧
      s'.is_poll = s.is_poll := by
  rcases hmode with h | h <;> subst h
  · exact ⟨⟨ct, s.uid, 'r', none, ctMon⟩,
      { s with cons_sd := some ⟨ct, s.uid, 'r', none, ctMon⟩ },
      by simp [LpelStreamOpen], rfl, fun _ => ⟨rfl, rfl⟩,
      fun hw => absurd hw (by decide), rfl, rfl, rfl, rfl⟩
  · exact ⟨⟨ct, s.uid, 'w', none, ctMon⟩,
      { s with prod_sd := some ⟨ct, s.uid, 'w', none, ctMon⟩ },
      by simp [LpelStreamOpen], rfl, fun hr => absurd hr (by decide),
      fun _ => ⟨rfl, rfl⟩, rfl, rfl, rfl, rfl⟩

/-- Witness for C10: opening for reading a stream whose consumer slot is
already bound succeeds and rebinds `cons_sd` to the new descriptor. -/
theorem open_overwrites_binding_witness :
    ∃ sd s', LpelStreamOpen
        ⟨⟨1, []⟩, 5, false, none, some ⟨3, 5, 'r', none, false⟩, 0, 1⟩ 'r' 4 false
      = some (sd, s') ∧ s'.cons_sd = some sd := by
  obtain ⟨sd, s', h, _, hr, _⟩ := open_overwrites_binding
    ⟨⟨1, []⟩, 5, false, none, some ⟨3, 5, 'r', none, false⟩, 0, 1⟩ 'r' 4 false (Or.inl rfl)
  exact ⟨sd, s', h, (hr rfl).1⟩

/-- Modelled from the spec (§3, §4.5; `streamset.c` is not under `src/`):
a stream set is a cyclic list of read-mode descriptors.  `elems` lists the
descriptors in cyclic order and `hd` is the index of the descriptor the
set handle (`*set`) points to.  Iteration starts at the element after the
handle and goes once around — per the post-condition comment in
stream.c:397-400, after `Poll` the first element iterated is the one after
the one which caused the wakeup. -/
structure lpel_streamset_t where
  elems : List lpel_stream_desc_t
  hd : Nat
deriving Repr, DecidableEq

/-- The iteration order of a stream set: the cyclic list rotated to start
just past the handle. -/
def setTraversal (set : lpel_streamset_t) : List lpel_stream_desc_t :=
  set.elems.rotate (set.hd + 1)

/-- The cyclic successor of `x` in the cyclic list `l`: the element just
past (the first occurrence of) `x`. -/
def cyclicNext (l : List lpel_stream_desc_t) (x : lpel_stream_desc_t) :
    Option lpel_stream_desc_t :=
  (l.rotate (l.indexOf x + 1)).head?

/-- The state `LpelStreamPoll` threads through its phases: the heap of
streams addressed by uid, and the calling task's `poll_token` and
`wakeup_sd` fields. -/
structure PollState where
  streams : Nat → lpel_stream_t
  token : Bool
  wakeup : Option lpel_stream_desc_t

/-- The scan loop of `LpelStreamPoll` (stream.c:419-454): for each
descriptor in iteration order, under `prod_lock`, if the buffer holds an
item swap the poll token to `0` — on winning it record `wakeup_sd` and
suppress the context switch — and stop; otherwise mark the stream as an
activator (`is_poll = 1`) and count it.  Returns the final state, the
activator count `cnt`, and `do_ctx_switch`. -/
def pollScan (ds : List lpel_stream_desc_t) (st : PollState) (cnt : Int) (dcs : Bool) :
    PollState × Int × Bool :=
  match ds with
  | [] => (st, cnt, dcs)
  | sd :: rest =>
    let s := st.streams sd.stream
    if (LpelBufferTop s.buffer).isSome then
      let tok := st.token
      let st1 : PollState := { st with token := false }
      if tok then ({ st1 with wakeup := some sd }, cnt, false)
      else (st1, cnt, dcs)
    else
      pollScan rest
        { st with streams :=
            fun k => if k = sd.stream then { s with is_poll := true } else st.streams k }
        (cnt + 1) dcs

/-- The disarm loop of `LpelStreamPoll` (stream.c:474-481): traverse the
set again clearing `is_poll` under `prod_lock`, stopping once `--cnt`
reaches `0` (a C `int`: a start value of `0` goes negative and never stops
early, so the whole set is cleared). -/
def pollDisarm (ds : List lpel_stream_desc_t) (streams : Nat → lpel_stream_t)
    (cnt : Int) : Nat → lpel_stream_t :=
  match ds with
  | [] => streams
  | sd :: rest =>
    let streams1 : Nat → lpel_stream_t := fun k => if k = sd.stream
      then { streams sd.stream with is_poll := false } else streams k
    if cnt - 1 = 0 then streams1 else pollDisarm rest streams1 (cnt - 1)

/-- The environment action that resumes a blocked `LpelStreamPoll`: some
producer task `wtask` (monitoring flag `wmon`) performs `LpelStreamWrite`
of `witem` through its write descriptor bound to the stream with uid
`wuid`. -/
structure PollEnv where
  wtask : Nat
  wmon : Bool
  wuid : Nat
  witem : Item

/-- Result of `LpelStreamPoll`: the returned descriptor, the updated set
handle, the final stream heap, the task's final poll token, and the
completion flag (`ok = false`: empty-set precondition violated, blocked
forever with no producer, or a failed assertion). -/
structure PollRes where
  ret : Option lpel_stream_desc_t
  set : lpel_streamset_t
  streams : Nat → lpel_stream_t
  token : Bool
  ok : Bool

/-- The final phase of `LpelStreamPoll` (stream.c:461-488): assert the
poll token is gone, disarm the activators counted by the scan
(`pollDisarm` over the same traversal), rotate the set handle to
`wakeup_sd` and return `wakeup_sd`. -/
def pollFinish (set : lpel_streamset_t) (st2 : PollState) (cnt : Int) : PollRes :=
  if st2.token then
    { ret := none, set := set, streams := st2.streams, token := st2.token, ok := false }
  else
    match st2.wakeup with
    | none => { ret := none, set := set,
                streams := pollDisarm (setTraversal set) st2.streams cnt,
                token := false, ok := false }
    | some w =>
        { ret := some w, set := { set with hd := set.elems.indexOf w },
          streams := pollDisarm (setTraversal set) st2.streams cnt,
          token := false, ok := true }

/-- The context-switch phase of `LpelStreamPoll` (stream.c:456-461): when
the scan registered only activators (`do_ctx_switch` still set), the task
blocks on `BLOCKED_ON_ANYIN` and resumes only after the environment's
producer has performed a write (`env`; `none` means no producer ever acts
and the poll stays blocked).  The producer write is applied with the
blocked task's current `poll_token`/`wakeup_sd` as the consumer-task
state, then the disarm and return phases run. -/
def pollResume (set : lpel_streamset_t) (st1 : PollState) (cnt : Int) (dcs : Bool)
    (env : Option PollEnv) : PollRes :=
  if dcs then
    match env with
    | none =>
        { ret := none, set := set, streams := st1.streams, token := st1.token, ok := false }
    | some e =>
        let w := LpelStreamWrite e.wtask e.wmon (st1.streams e.wuid)
          { poll_token := st1.token, wakeup_sd := st1.wakeup } e.witem none
        if w.ok then
          pollFinish set
            { streams := fun k => if k = e.wuid then w.s else st1.streams k,
              token := w.cons.poll_token, wakeup := w.cons.wakeup_sd } cnt
        else
          { ret := none, set := set, streams := st1.streams, token := st1.token, ok := false }
  else pollFinish set st1 cnt

/-- `LpelStreamPoll` (stream.c:402-489) for the consumer task owning
`set`: assert the set non-empty, place the poll token, scan the set
(`pollScan`), then run the context-switch, disarm and return phases
(`pollResume`, `pollFinish`). -/
def LpelStreamPoll (set : lpel_streamset_t) (streams0 : Nat → lpel_stream_t)
    (task0 : lpel_task_t) (env : Option PollEnv) : PollRes :=
  if set.elems = [] then
    { ret := none, set := set, streams := streams0, token := task0.poll_token, ok := false }
  else
    let st0 : PollState := { streams := streams0, token := true, wakeup := task0.wakeup_sd }
    let sr := pollScan (setTraversal set) st0 0 true
    pollResume set sr.1 sr.2.1 sr.2.2 env

/-- The number of entries the disarm loop visits: all of them when the
activator count starts at or below `0`, else `cnt` capped by the list
length. -/
def disarmCount (cnt : Int) (n : Nat) : Nat :=
  if cnt ≤ 0 then n else min cnt.toNat n

/-- Scan over streams that are all empty: every stream in the list is
marked as an activator, the count grows by the list length, and token,
wakeup and `do_ctx_switch` are untouched. -/
theorem pollScan_all_empty (ds : List lpel_stream_desc_t) (st : PollState)
    (cnt : Int) (dcs : Bool)
    (h : ∀ sd ∈ ds, (st.streams sd.stream).buffer.data = []) :
    (pollScan ds st cnt dcs).2.1 = cnt + ds.length ∧
    (pollScan ds st cnt dcs).2.2 = dcs ∧
    (pollScan ds st cnt dcs).1.token = st.token ∧
    (pollScan ds st cnt dcs).1.wakeup = st.wakeup ∧
    ∀ k, (pollScan ds st cnt dcs).1.streams k
        = if k ∈ ds.map (fun d => d.stream)
          then { st.streams k with is_poll := true } else st.streams k := by
  induction ds generalizing st cnt with
  | nil => simp [pollScan]
  | cons sd rest ih =>
    have hsd : (st.streams sd.stream).buffer.data = [] := h sd (by simp)
    have hTop : (LpelBufferTop (st.streams sd.stream).buffer).isSome = false := by
      simp [LpelBufferTop, hsd]
    have hstep : pollScan (sd :: rest) st cnt dcs
        = pollScan rest
            { st with streams := fun k => if k = sd.stream
                then { st.streams sd.stream with is_poll := true } else st.streams k }
            (cnt + 1) dcs := by
      simp [pollScan, hTop]
    set st' : PollState := { st with streams := fun k => if k = sd.stream
        then { st.streams sd.stream with is_poll := true } else st.streams k } with hst'
    have h' : ∀ sd2 ∈ rest, (st'.streams sd2.stream).buffer.data = [] := by
      intro sd2 hm
      by_cases he : sd2.stream = sd.stream
      · simp [hst', he, hsd]
      · simpa [hst', he] using h sd2 (by simp [hm])
    obtain ⟨i1, i2, i3, i4, i5⟩ := ih st' (cnt + 1) h'
    rw [hstep]
    refine ⟨by rw [i1]; simp only [List.length_cons]; push_cast; ring, i2, i3, i4, ?_⟩
    intro k
    rw [i5 k]
    by_cases hk : k = sd.stream
    · subst hk
      by_cases hmem : sd.stream ∈ rest.map (fun d => d.stream) <;>
        simp [hst', hmem]
    · by_cases hmem : k ∈ rest.map (fun d => d.stream) <;>
        simp [hst', hk, hmem, Ne.symm hk]

/-- Scan that reaches a non-empty stream after an all-empty prefix, with
the token still in hand: the prefix is marked, the token is consumed, the
found descriptor is recorded in `wakeup_sd`, the count grows only by the
prefix length and the context switch is suppressed. -/
theorem pollScan_found (pre : List lpel_stream_desc_t) (sdR : lpel_stream_desc_t)
    (post : List lpel_stream_desc_t) (st : PollState) (cnt : Int) (dcs : Bool)
    (hpre : ∀ d ∈ pre, (st.streams d.stream).buffer.data = [])
    (hsd : (st.streams sdR.stream).buffer.data ≠ [])
    (htok : st.token = true) :
    (pollScan (pre ++ sdR :: post) st cnt dcs).2.1 = cnt + pre.length ∧
    (pollScan (pre ++ sdR :: post) st cnt dcs).2.2 = false ∧
    (pollScan (pre ++ sdR :: post) st cnt dcs).1.token = false ∧
    (pollScan (pre ++ sdR :: post) st cnt dcs).1.wakeup = some sdR ∧
    ∀ k, (pollScan (pre ++ sdR :: post) st cnt dcs).1.streams k
        = if k ∈ pre.map (fun d => d.stream)
          then { st.streams k with is_poll := true } else st.streams k := by
  induction pre generalizing st cnt with
  | nil =>
    have hTop : (LpelBufferTop (st.streams sdR.stream).buffer).isSome = true := by
      cases hd2 : (st.streams sdR.stream).buffer.data with
      | nil => exact absurd hd2 hsd
      | cons a l => simp [LpelBufferTop, hd2]
    simp [pollScan, hTop, htok]
  | cons d pre ih =>
    have hd0 : (st.streams d.stream).buffer.data = [] := hpre d (by simp)
    have hTop : (LpelBufferTop (st.streams d.stream).buffer).isSome = false := by
      simp [LpelBufferTop, hd0]
    have hstep : pollScan ((d :: pre) ++ sdR :: post) st cnt dcs
        = pollScan (pre ++ sdR :: post)
            { st with streams := fun k => if k = d.stream
                then { st.streams d.stream with is_poll := true } else st.streams k }
            (cnt + 1) dcs := by
      simp [pollScan, hTop]
    set st' : PollState := { st with streams := fun k => if k = d.stream
        then { st.streams d.stream with is_poll := true } else st.streams k } with hst'
    have hpre' : ∀ x ∈ pre, (st'.streams x.stream).buffer.data = [] := by
      intro x hm
      by_cases he : x.stream = d.stream
      · simp [hst', he, hd0]
      · simpa [hst', he] using hpre x (by simp [hm])
    have hsd' : (st'.streams sdR.stream).buffer.data ≠ [] := by
      by_cases he : sdR.stream = d.stream
      · simpa [hst', he] using (he ▸ hsd)
      · simpa [hst', he] using hsd
    have htok' : st'.token = true := htok
    obtain ⟨i1, i2, i3, i4, i5⟩ := ih st' (cnt + 1) hpre' hsd' htok'
    rw [hstep]
    refine ⟨by rw [i1]; simp only [List.length_cons]; push_cast; ring, i2, i3, i4, ?_⟩
    intro k
    rw [i5 k]
    by_cases hk : k = d.stream
    · subst hk
      by_cases hmem : d.stream ∈ pre.map (fun x => x.stream) <;>
        simp [hst', hmem]
    · by_cases hmem : k ∈ pre.map (fun x => x.stream) <;>
        simp [hst', hk, hmem, Ne.symm hk]

/-- The disarm loop clears `is_poll` on exactly the first `disarmCount cnt
|ds|` entries of the traversal (all of them when the count started at or
below zero) and touches nothing else. -/
theorem pollDisarm_spec (ds : List lpel_stream_desc_t) (streams : Nat → lpel_stream_t)
    (cnt : Int) :
    ∀ k, pollDisarm ds streams cnt k
      = if k ∈ (ds.take (disarmCount cnt ds.length)).map (fun d => d.stream)
        then { streams k with is_poll := false } else streams k := by
  induction ds generalizing streams cnt with
  | nil => intro k; simp [pollDisarm, disarmCount]
  | cons sd rest ih =>
    intro k
    by_cases h1 : cnt - 1 = 0
    · have hm : disarmCount cnt (sd :: rest).length = 1 := by
        unfold disarmCount
        simp only [List.length_cons]
        split_ifs <;> omega
      have hres : pollDisarm (sd :: rest) streams cnt = fun k => if k = sd.stream
          then { streams sd.stream with is_poll := false } else streams k := by
        simp [pollDisarm, h1]
      rw [hres, hm]
      by_cases hk : k = sd.stream <;> simp [hk]
    · have hres : pollDisarm (sd :: rest) streams cnt
          = pollDisarm rest (fun k => if k = sd.stream
              then { streams sd.stream with is_poll := false } else streams k) (cnt - 1) := by
        simp [pollDisarm, h1]
      have hm : disarmCount cnt (sd :: rest).length
          = disarmCount (cnt - 1) rest.length + 1 := by
        unfold disarmCount
        simp only [List.length_cons]
        split_ifs <;> omega
      rw [hres, ih, hm, List.take_succ_cons]
      by_cases hk : k = sd.stream
      · subst hk
        by_cases hmem : sd.stream ∈ (rest.take (disarmCount (cnt - 1) rest.length)).map
            (fun d => d.stream) <;> simp [hmem]
      · by_cases hmem : k ∈ (rest.take (disarmCount (cnt - 1) rest.length)).map
            (fun d => d.stream) <;> simp [hk, hmem, Ne.symm hk]

/-- A list containing an element satisfying `P` splits at the first such
element. -/
theorem list_first_split {α : Type} (P : α → Prop) :
    ∀ (l : List α), (∃ x ∈ l, P x) →
      ∃ pre x post, l = pre ++ x :: post ∧ (∀ y ∈ pre, ¬ P y) ∧ P x := by
  intro l
  induction l with
  | nil => simp
  | cons a l ih =>
    intro h
    by_cases ha : P a
    · exact ⟨[], a, l, rfl, by simp, ha⟩
    · obtain ⟨x, hx, hPx⟩ := h
      have hx' : x ∈ l := by
        rcases List.mem_cons.mp hx with h' | h'
        · exact absurd (h' ▸ hPx) ha
        · exact h'
      obtain ⟨pre, y, post, heq, hpre, hPy⟩ := ih ⟨x, hx', hPx⟩
      refine ⟨a :: pre, y, post, by rw [heq, List.cons_append], ?_, hPy⟩
      intro z hz
      rcases List.mem_cons.mp hz with h' | h'
      · exact h' ▸ ha
      · exact hpre z h'

/-- A producer write to an empty, quiescent, polled stream (`is_poll` set,
token available) completes, wins the token, records the stream's consumer
descriptor in `wakeup_sd`, and leaves the single written item in the
buffer with `is_poll` cleared. -/
theorem write_poll_handoff (p : Nat) (mon : Bool) (s : lpel_stream_t) (tk : Bool)
    (wk : Option lpel_stream_desc_t) (item : Item) (rsd : lpel_stream_desc_t)
    (hdata : s.buffer.data = []) (hcap : 0 < s.buffer.cap)
    (hip : s.is_poll = true) (hcons : s.cons_sd = some rsd)
    (hes : s.e_sem ≠ 0) (hns : 0 ≤ s.n_sem) (htk : tk = true) :
    (LpelStreamWrite p mon s ⟨tk, wk⟩ item none).ok = true ∧
    (LpelStreamWrite p mon s ⟨tk, wk⟩ item none).cons.poll_token = false ∧
    (LpelStreamWrite p mon s ⟨tk, wk⟩ item none).cons.wakeup_sd = some rsd ∧
    ((LpelStreamWrite p mon s ⟨tk, wk⟩ item none).s).buffer.data = [item] ∧
    ((LpelStreamWrite p mon s ⟨tk, wk⟩ item none).s).is_poll = false := by
  subst htk
  obtain ⟨⟨cap, data⟩, uid, ip, psd, csd, nsem, esem⟩ := s
  simp only at hdata hip hcons hes hns hcap
  subst hdata hip hcons
  have hns' : ¬ (nsem < 0) := by omega
  simp [LpelStreamWrite, writeRest, LpelBufferIsSpace, LpelBufferPut, hes, hcap, hns']

/-- Full characterization of a completed `LpelStreamPoll` under the §4.5
preconditions: non-empty set, no stale activators, and — when every stream
of the set is empty — an environment producer write on a stream of the set
that has space and is quiescent.  The poll completes, returns a descriptor
of the set whose stream then holds an item, leaves `is_poll` cleared on
every stream of the set, and stores the returned descriptor as the new set
handle. -/
theorem poll_spec (set : lpel_streamset_t) (streams0 : Nat → lpel_stream_t)
    (task0 : lpel_task_t) (env : Option PollEnv)
    (hne : set.elems ≠ [])
    (hclean : ∀ sd ∈ set.elems, (streams0 sd.stream).is_poll = false)
    (henv : (∀ d ∈ set.elems, (streams0 d.stream).buffer.data = []) →
      ∃ e rsd, env = some e ∧ (streams0 e.wuid).cons_sd = some rsd ∧
        rsd ∈ set.elems ∧ rsd.stream = e.wuid ∧
        (streams0 e.wuid).e_sem ≠ 0 ∧ 0 ≤ (streams0 e.wuid).n_sem ∧
        0 < (streams0 e.wuid).buffer.cap) :
    ∃ w, (LpelStreamPoll set streams0 task0 env).ret = some w ∧
      (LpelStreamPoll set streams0 task0 env).ok = true ∧
      w ∈ set.elems ∧
      ((LpelStreamPoll set streams0 task0 env).streams w.stream).buffer.data ≠ [] ∧
      (∀ sd ∈ set.elems,
        ((LpelStreamPoll set streams0 task0 env).streams sd.stream).is_poll = false) ∧
      (LpelStreamPoll set streams0 task0 env).set
        = { elems := set.elems, hd := set.elems.indexOf w } := by
  classical
  have hpoll : LpelStreamPoll set streams0 task0 env
      = pollResume set
          (pollScan (setTraversal set) ⟨streams0, true, task0.wakeup_sd⟩ 0 true).1
          (pollScan (setTraversal set) ⟨streams0, true, task0.wakeup_sd⟩ 0 true).2.1
          (pollScan (setTraversal set) ⟨streams0, true, task0.wakeup_sd⟩ 0 true).2.2
          env := by
    unfold LpelStreamPoll
    rw [if_neg hne]
  have htrmem : ∀ d : lpel_stream_desc_t, d ∈ setTraversal set ↔ d ∈ set.elems := by
    intro d; simp [setTraversal, List.mem_rotate]
  have htrne : setTraversal set ≠ [] := by
    intro h
    exact hne (by simpa [setTraversal] using h)
  by_cases hAE : ∀ d ∈ setTraversal set, (streams0 d.stream).buffer.data = []
  · -- every stream of the set is empty: blocked path, resumed by env's write
    obtain ⟨e, rsd, henveq, hcons, hrsdmem, hrsduid, hesem, hnsem, hcap⟩ :=
      henv (fun d hd => hAE d ((htrmem d).mpr hd))
    obtain ⟨i1, i2, i3, i4, i5⟩ := pollScan_all_empty (setTraversal set)
      ⟨streams0, true, task0.wakeup_sd⟩ 0 true hAE
    obtain ⟨S, hSdef⟩ :
        ∃ S, pollScan (setTraversal set) ⟨streams0, true, task0.wakeup_sd⟩ 0 true = S :=
      ⟨_, rfl⟩
    rw [hSdef] at i1 i2 i3 i4 i5 hpoll
    subst henveq
    have hk : e.wuid ∈ (setTraversal set).map (fun d => d.stream) :=
      List.mem_map.mpr ⟨rsd, (htrmem rsd).mpr hrsdmem, hrsduid⟩
    have hsM : S.1.streams e.wuid = { streams0 e.wuid with is_poll := true } := by
      rw [i5, if_pos hk]
    have htk2 : S.1.token = true := i3
    have hwk2 : S.1.wakeup = task0.wakeup_sd := i4
    have hdata : (streams0 e.wuid).buffer.data = [] := by
      have := hAE rsd ((htrmem rsd).mpr hrsdmem)
      rwa [hrsduid] at this
    have hW := write_poll_handoff e.wtask e.wmon { streams0 e.wuid with is_poll := true }
      true task0.wakeup_sd e.witem rsd hdata hcap rfl hcons hesem hnsem rfl
    rw [hpoll, i2]
    have hres : pollResume set S.1 S.2.1 true (some e)
        = pollFinish set
            { streams := fun k => if k = e.wuid
                then (LpelStreamWrite e.wtask e.wmon { streams0 e.wuid with is_poll := true }
                  ⟨true, task0.wakeup_sd⟩ e.witem none).s
                else S.1.streams k,
              token := (LpelStreamWrite e.wtask e.wmon
                  { streams0 e.wuid with is_poll := true }
                  ⟨true, task0.wakeup_sd⟩ e.witem none).cons.poll_token,
              wakeup := (LpelStreamWrite e.wtask e.wmon
                  { streams0 e.wuid with is_poll := true }
                  ⟨true, task0.wakeup_sd⟩ e.witem none).cons.wakeup_sd } S.2.1 := by
      simp only [pollResume, if_true]
      rw [hsM, htk2, hwk2]
      rw [if_pos hW.1]
    rw [hres]
    have hfin : pollFinish set
        { streams := fun k => if k = e.wuid
            then (LpelStreamWrite e.wtask e.wmon { streams0 e.wuid with is_poll := true }
              ⟨true, task0.wakeup_sd⟩ e.witem none).s
            else S.1.streams k,
          token := (LpelStreamWrite e.wtask e.wmon
              { streams0 e.wuid with is_poll := true }
              ⟨true, task0.wakeup_sd⟩ e.witem none).cons.poll_token,
          wakeup := (LpelStreamWrite e.wtask e.wmon
              { streams0 e.wuid with is_poll := true }
              ⟨true, task0.wakeup_sd⟩ e.witem none).cons.wakeup_sd } S.2.1
        = { ret := some rsd, set := { set with hd := set.elems.indexOf rsd },
            streams := pollDisarm (setTraversal set)
              (fun k => if k = e.wuid
                then (LpelStreamWrite e.wtask e.wmon { streams0 e.wuid with is_poll := true }
                  ⟨true, task0.wakeup_sd⟩ e.witem none).s
                else S.1.streams k) S.2.1,
            token := false, ok := true } := by
      simp only [pollFinish, hW.2.1, hW.2.2.1]
      simp
    rw [hfin]
    have hdcAll : disarmCount S.2.1 (setTraversal set).length = (setTraversal set).length := by
      have hl : 0 < (setTraversal set).length := List.length_pos.mpr htrne
      have hc : S.2.1 = ((setTraversal set).length : Int) := by rw [i1]; ring
      rw [hc]
      unfold disarmCount
      split_ifs with h <;> omega
    have hclear : ∀ k, k ∈ (setTraversal set).map (fun d => d.stream) →
        pollDisarm (setTraversal set)
          (fun k => if k = e.wuid
            then (LpelStreamWrite e.wtask e.wmon { streams0 e.wuid with is_poll := true }
              ⟨true, task0.wakeup_sd⟩ e.witem none).s
            else S.1.streams k) S.2.1 k
        = { (if k = e.wuid
            then (LpelStreamWrite e.wtask e.wmon { streams0 e.wuid with is_poll := true }
              ⟨true, task0.wakeup_sd⟩ e.witem none).s
            else S.1.streams k) with is_poll := false } := by
      intro k hkm
      rw [pollDisarm_spec, hdcAll, List.take_length, if_pos hkm]
    refine ⟨rsd, rfl, rfl, hrsdmem, ?_, ?_, rfl⟩
    · dsimp only
      rw [hclear rsd.stream (List.mem_map.mpr ⟨rsd, (htrmem rsd).mpr hrsdmem, rfl⟩)]
      rw [hrsduid]
      simp [hW.2.2.2.1]
    · intro sd hsd
      dsimp only
      rw [hclear sd.stream (List.mem_map.mpr ⟨sd, (htrmem sd).mpr hsd, rfl⟩)]
  · -- some stream of the set is ready: short-circuit path
    have hEx : ∃ d ∈ setTraversal set, (streams0 d.stream).buffer.data ≠ [] := by
      push_neg at hAE
      exact hAE
    obtain ⟨pre, sdR, post, htr, hpre, hPx⟩ :=
      list_first_split (fun d => (streams0 d.stream).buffer.data ≠ []) (setTraversal set) hEx
    have hi := pollScan_found pre sdR post ⟨streams0, true, task0.wakeup_sd⟩ 0 true
      (fun d hd => not_not.mp (hpre d hd)) hPx rfl
    rw [← htr] at hi
    obtain ⟨i1, i2, i3, i4, i5⟩ := hi
    obtain ⟨S, hSdef⟩ :
        ∃ S, pollScan (setTraversal set) ⟨streams0, true, task0.wakeup_sd⟩ 0 true = S :=
      ⟨_, rfl⟩
    rw [hSdef] at i1 i2 i3 i4 i5 hpoll
    rw [hpoll, i2]
    have hres : pollResume set S.1 S.2.1 false env = pollFinish set S.1 S.2.1 := by
      simp [pollResume]
    rw [hres]
    have hfin : pollFinish set S.1 S.2.1
        = { ret := some sdR, set := { set with hd := set.elems.indexOf sdR },
            streams := pollDisarm (setTraversal set) S.1.streams S.2.1,
            token := false, ok := true } := by
      simp only [pollFinish, i3, i4]
      simp
    rw [hfin]
    have hb1 : ∀ k, (S.1.streams k).buffer = (streams0 k).buffer := by
      intro k
      rw [i5]
      split_ifs <;> rfl
    have hbuf : ∀ k, ((pollDisarm (setTraversal set) S.1.streams S.2.1) k).buffer.data
        = (streams0 k).buffer.data := by
      intro k
      rw [pollDisarm_spec]
      split_ifs <;> simp [hb1]
    have hsub : ∀ k, k ∈ pre.map (fun d => d.stream) →
        k ∈ ((setTraversal set).take
          (disarmCount S.2.1 (setTraversal set).length)).map (fun d => d.stream) := by
      by_cases hpre0 : pre = []
      · subst hpre0
        intro k hk
        simp at hk
      · have hl : 0 < pre.length := List.length_pos.mpr hpre0
        have hlen : (setTraversal set).length = pre.length + (post.length + 1) := by
          rw [htr]
          simp [List.length_append]
        have hc : S.2.1 = (pre.length : Int) := by rw [i1]; ring
        have hdc : disarmCount S.2.1 (setTraversal set).length = pre.length := by
          rw [hc, hlen]
          unfold disarmCount
          split_ifs with h <;> omega
        intro k hk
        rw [hdc, htr, List.take_left]
        exact hk
    refine ⟨sdR, rfl, rfl,
      (htrmem sdR).mp (by rw [htr]; exact List.mem_append_right _ (List.mem_cons_self _ _)),
      ?_, ?_, rfl⟩
    · dsimp only
      rw [hbuf]
      exact hPx
    · intro sd hsd
      dsimp only
      rw [pollDisarm_spec]
      split_ifs with hcl
      · rfl
      · rw [i5]
        split_ifs with hmark
        · exact absurd (hsub sd.stream hmark) hcl
        · exact hclean sd hsd

/-- Claim C4: for every `LpelStreamPoll` on a non-empty set (no stale
activators; with a producer write resuming it when every stream of the set
was empty), at return the returned descriptor's stream has a non-null
`Peek` (`LpelBufferTop`), and no stream bound to a descriptor of the set
has `is_poll` set: every activator registered during the scan has been
cleared by the disarm pass, including when the scan short-circuited before
marking all streams. -/
theorem poll_peek_and_disarm (set : lpel_streamset_t) (streams0 : Nat → lpel_stream_t)
    (task0 : lpel_task_t) (env : Option PollEnv)
    (hne : set.elems ≠ [])
    (hclean : ∀ sd ∈ set.elems, (streams0 sd.stream).is_poll = false)
    (henv : (∀ d ∈ set.elems, (streams0 d.stream).buffer.data = []) →
      ∃ e rsd, env = some e ∧ (streams0 e.wuid).cons_sd = some rsd ∧
        rsd ∈ set.elems ∧ rsd.stream = e.wuid ∧
        (streams0 e.wuid).e_sem ≠ 0 ∧ 0 ≤ (streams0 e.wuid).n_sem ∧
        0 < (streams0 e.wuid).buffer.cap) :
    ∃ w, (LpelStreamPoll set streams0 task0 env).ret = some w ∧
      LpelBufferTop ((LpelStreamPoll set streams0 task0 env).streams w.stream).buffer
        ≠ none ∧
      ∀ sd ∈ set.elems,
        ((LpelStreamPoll set streams0 task0 env).streams sd.stream).is_poll = false := by
  obtain ⟨w, h1, _, _, h4, h5, _⟩ := poll_spec set streams0 task0 env hne hclean henv
  refine ⟨w, h1, ?_, h5⟩
  simpa [LpelBufferTop, List.head?_eq_none_iff] using h4

/-- Witness for C4: the scan short-circuits on the first of two streams;
both leave `Poll` with `is_poll` clear and the returned stream holds the
item. -/
theorem poll_peek_and_disarm_witness :
    ∃ w, (LpelStreamPoll ⟨[⟨10, 1, 'r', none, false⟩, ⟨10, 2, 'r', none, false⟩], 0⟩
        (fun k => if k = 1
          then ⟨⟨2, [9]⟩, 1, false, none, some ⟨10, 1, 'r', none, false⟩, 1, 1⟩
          else ⟨⟨2, []⟩, 2, false, none, some ⟨10, 2, 'r', none, false⟩, 0, 2⟩)
        ⟨false, none⟩ none).ret = some w ∧
      LpelBufferTop ((LpelStreamPoll ⟨[⟨10, 1, 'r', none, false⟩, ⟨10, 2, 'r', none, false⟩], 0⟩
        (fun k => if k = 1
          then ⟨⟨2, [9]⟩, 1, false, none, some ⟨10, 1, 'r', none, false⟩, 1, 1⟩
          else ⟨⟨2, []⟩, 2, false, none, some ⟨10, 2, 'r', none, false⟩, 0, 2⟩)
        ⟨false, none⟩ none).streams w.stream).buffer ≠ none ∧
      ∀ sd ∈ [(⟨10, 1, 'r', none, false⟩ : lpel_stream_desc_t), ⟨10, 2, 'r', none, false⟩],
        ((LpelStreamPoll ⟨[⟨10, 1, 'r', none, false⟩, ⟨10, 2, 'r', none, false⟩], 0⟩
        (fun k => if k = 1
          then ⟨⟨2, [9]⟩, 1, false, none, some ⟨10, 1, 'r', none, false⟩, 1, 1⟩
          else ⟨⟨2, []⟩, 2, false, none, some ⟨10, 2, 'r', none, false⟩, 0, 2⟩)
        ⟨false, none⟩ none).streams sd.stream).is_poll = false :=
  poll_peek_and_disarm
    ⟨[⟨10, 1, 'r', none, false⟩, ⟨10, 2, 'r', none, false⟩], 0⟩
    (fun k => if k = 1
      then ⟨⟨2, [9]⟩, 1, false, none, some ⟨10, 1, 'r', none, false⟩, 1, 1⟩
      else ⟨⟨2, []⟩, 2, false, none, some ⟨10, 2, 'r', none, false⟩, 0, 2⟩)
    ⟨false, none⟩ none (by decide) (by decide)
    (fun h => absurd (h ⟨10, 1, 'r', none, false⟩ (by decide)) (by decide))

/-- Counterexample to C5: with the set `{d1, d2}` (handle on `d2`, so the
scan starts at `d1`) and an item ready on `d1`'s stream, `LpelStreamPoll`
returns `d1` — the descriptor whose stream readiness caused the return —
and not `d2`, the descriptor just past it in cyclic order; and the next
traversal of the rotated set starts with `d2`, not with the freshly ready
`d1`. -/
theorem poll_rotation_counterexample :
    (LpelStreamPoll ⟨[⟨10, 1, 'r', none, false⟩, ⟨10, 2, 'r', none, false⟩], 1⟩
        (fun k => if k = 1
          then ⟨⟨2, [9]⟩, 1, false, none, some ⟨10, 1, 'r', none, false⟩, 1, 1⟩
          else ⟨⟨2, []⟩, 2, false, none, some ⟨10, 2, 'r', none, false⟩, 0, 2⟩)
        ⟨false, none⟩ none).ret = some ⟨10, 1, 'r', none, false⟩ ∧
    cyclicNext [⟨10, 1, 'r', none, false⟩, ⟨10, 2, 'r', none, false⟩]
        ⟨10, 1, 'r', none, false⟩ = some ⟨10, 2, 'r', none, false⟩ ∧
    (⟨10, 1, 'r', none, false⟩ : lpel_stream_desc_t) ≠ ⟨10, 2, 'r', none, false⟩ ∧
    (setTraversal (LpelStreamPoll
        ⟨[⟨10, 1, 'r', none, false⟩, ⟨10, 2, 'r', none, false⟩], 1⟩
        (fun k => if k = 1
          then ⟨⟨2, [9]⟩, 1, false, none, some ⟨10, 1, 'r', none, false⟩, 1, 1⟩
          else ⟨⟨2, []⟩, 2, false, none, some ⟨10, 2, 'r', none, false⟩, 0, 2⟩)
        ⟨false, none⟩ none).set).head? = some ⟨10, 2, 'r', none, false⟩ := by
  refine ⟨?_, by decide, by decide, ?_⟩ <;> decide

/-- C5 as amended: `LpelStreamPoll` returns `wakeup_sd` itself — the
descriptor whose stream's readiness or arrival unblocked the task — and
stores that same descriptor as the new set handle (`*set = wakeup_sd`), so
the value returned equals the value stored; since iteration starts at the
element after the handle, the next traversal of the set begins with the
descriptor just past the freshly ready one in cyclic order. -/
theorem poll_returns_stored_rotation (set : lpel_streamset_t)
    (streams0 : Nat → lpel_stream_t) (task0 : lpel_task_t) (env : Option PollEnv)
    (hne : set.elems ≠ [])
    (hclean : ∀ sd ∈ set.elems, (streams0 sd.stream).is_poll = false)
    (henv : (∀ d ∈ set.elems, (streams0 d.stream).buffer.data = []) →
      ∃ e rsd, env = some e ∧ (streams0 e.wuid).cons_sd = some rsd ∧
        rsd ∈ set.elems ∧ rsd.stream = e.wuid ∧
        (streams0 e.wuid).e_sem ≠ 0 ∧ 0 ≤ (streams0 e.wuid).n_sem ∧
        0 < (streams0 e.wuid).buffer.cap) :
    ∃ w, (LpelStreamPoll set streams0 task0 env).ret = some w ∧
      (LpelStreamPoll set streams0 task0 env).set
        = { elems := set.elems, hd := set.elems.indexOf w } ∧
      w ∈ set.elems ∧
      setTraversal (LpelStreamPoll set streams0 task0 env).set
        = set.elems.rotate (set.elems.indexOf w + 1) ∧
      (setTraversal (LpelStreamPoll set streams0 task0 env).set).head?
        = cyclicNext set.elems w := by
  obtain ⟨w, h1, _, h3, _, _, h6⟩ := poll_spec set streams0 task0 env hne hclean henv
  refine ⟨w, h1, h6, h3, ?_, ?_⟩
  · rw [h6]
    rfl
  · rw [h6]
    rfl

/-- Witness for the amended C5 on the blocked path: both streams empty, a
producer writes to the second stream; the poll returns `d2` and stores it
as the new handle. -/
theorem poll_returns_stored_rotation_witness :
    ∃ w, (LpelStreamPoll ⟨[⟨10, 1, 'r', none, false⟩, ⟨10, 2, 'r', none, false⟩], 0⟩
        (fun k => if k = 1
          then ⟨⟨2, []⟩, 1, false, none, some ⟨10, 1, 'r', none, false⟩, 0, 2⟩
          else ⟨⟨2, []⟩, 2, false, none, some ⟨10, 2, 'r', none, false⟩, 0, 2⟩)
        ⟨false, none⟩ (some ⟨7, false, 2, 42⟩)).ret = some w ∧
      (LpelStreamPoll ⟨[⟨10, 1, 'r', none, false⟩, ⟨10, 2, 'r', none, false⟩], 0⟩
        (fun k => if k = 1
          then ⟨⟨2, []⟩, 1, false, none, some ⟨10, 1, 'r', none, false⟩, 0, 2⟩
          else ⟨⟨2, []⟩, 2, false, none, some ⟨10, 2, 'r', none, false⟩, 0, 2⟩)
        ⟨false, none⟩ (some ⟨7, false, 2, 42⟩)).set
        = { elems := [⟨10, 1, 'r', none, false⟩, ⟨10, 2, 'r', none, false⟩],
            hd := [(⟨10, 1, 'r', none, false⟩ : lpel_stream_desc_t),
              ⟨10, 2, 'r', none, false⟩].indexOf w } ∧
      w ∈ [(⟨10, 1, 'r', none, false⟩ : lpel_stream_desc_t), ⟨10, 2, 'r', none, false⟩] := by
  obtain ⟨w, h1, h2, h3, _, _⟩ := poll_returns_stored_rotation
    ⟨[⟨10, 1, 'r', none, false⟩, ⟨10, 2, 'r', none, false⟩], 0⟩
    (fun k => if k = 1
      then ⟨⟨2, []⟩, 1, false, none, some ⟨10, 1, 'r', none, false⟩, 0, 2⟩
      else ⟨⟨2, []⟩, 2, false, none, some ⟨10, 2, 'r', none, false⟩, 0, 2⟩)
    ⟨false, none⟩ (some ⟨7, false, 2, 42⟩) (by decide) (by decide)
    (fun _ => ⟨⟨7, false, 2, 42⟩, ⟨10, 2, 'r', none, false⟩, rfl, by decide, by decide,
      rfl, by decide, by decide, by decide⟩)
  exact ⟨w, h1, h2, h3⟩
